import Mathlib

/-!
Verification of the HGPAK archive tool (`hgpaktool`) against its
natural-language specification.  The Python sources are embedded shallowly:
byte strings become `List Nat` (each entry one byte value), integer
arithmetic is `Nat`/`Int` (Python's unbounded ints restricted to the
non-negative values the archive format produces), and fallible operations
return `Except`/`Option`.  Each definition mirrors one function of the
repository, named after it.
-/

namespace HGPAK

/-- A byte string: one `Nat` per byte. -/
abbrev Bytes := List Nat

/-! ## constants.py -/

/-- Chunk size the grid computations use (`constants.DECOMPRESSED_CHUNK_SIZE`). -/
def DECOMPRESSED_CHUNK_SIZE : Nat := 0x10000

/-- The platform tag passed to `HGPAKFile` (`constants.Platform`). -/
inductive Platform where
  | windows
  | mac
  | linux
  | switch
deriving DecidableEq, Repr

/-- The compression codec (`constants.Compression`). -/
inductive Compression where
  | zstd
  | lz4
  | oodle
deriving DecidableEq, Repr

/-- Platform-to-codec mapping (`constants.compression_map`). -/
def compression_map : Platform → Compression
  | .windows => .zstd
  | .linux => .zstd
  | .mac => .lz4
  | .switch => .oodle

/-! ## utils.py -/

/-- `utils.determine_bins`: number of bins of size `bin_size` needed to hold
`num_bytes` bytes (Python `(num_bytes + bin_size - 1) // bin_size`). -/
def determine_bins (num_bytes bin_size : Nat) : Nat :=
  (num_bytes + bin_size - 1) / bin_size

/-- `utils.reqChunkBytes`: the smallest multiple of 0x10 that fits
`chunk_size` bytes (`0x10 * determine_bins(chunk_size)` with the default
bin size 0x10). -/
def reqChunkBytes (chunk_size : Nat) : Nat :=
  0x10 * determine_bins chunk_size 0x10

/-- `utils.roundup`: bit-twiddling round-up to the next 0x10 boundary
(Python `(x >> 4 << 4) + ((x & 0xF) and 0x10)`; the `and` yields `0` when
`x & 0xF` is `0` and `0x10` otherwise). -/
def roundup (x : Nat) : Nat :=
  (x >>> 4 <<< 4) + (if x &&& 0xF = 0 then 0 else 0x10)

/-- `utils.padding`: bytes needed to pad `x` to a 0x10 boundary
(Python `(0x10 - (x & 0xF)) & 0xF`). -/
def padding (x : Nat) : Nat :=
  (0x10 - (x &&& 0xF)) &&& 0xF

/-! ## compressors.py: the codec-dependent chunk sizes -/

/-- The `decompressed_chunk_size` attribute `Compressor.__init__` sets for
each codec (0x10000 for Zstd, 0x20000 for LZ4 and Oodle). -/
def compressorChunkSize : Compression → Nat
  | .zstd => 0x10000
  | .lz4 => 0x20000
  | .oodle => 0x20000

/-! ## api.py: PackedFile chunk-grid computations

`PackedFile.in_chunks` returns a pair of chunk indices; the end index is
`determine_bins(offset + size) - 1` computed in Python `int` arithmetic,
which can be `-1` for an empty file at offset 0, so the result lives in
`Int`. -/

/-- `PackedFile.in_chunks`: the `(start_chunk, end_chunk)` pair. -/
def in_chunks (offset size : Nat) : Int × Int :=
  if offset % DECOMPRESSED_CHUNK_SIZE = 0 then
    ((determine_bins offset DECOMPRESSED_CHUNK_SIZE : Int),
     (determine_bins (offset + size) DECOMPRESSED_CHUNK_SIZE : Int) - 1)
  else
    ((determine_bins offset DECOMPRESSED_CHUNK_SIZE : Int) - 1,
     (determine_bins (offset + size) DECOMPRESSED_CHUNK_SIZE : Int) - 1)

/-- `PackedFile.first_chunk_offset`: offset of the file within its first
chunk. -/
def first_chunk_offset (offset : Nat) : Nat :=
  offset % DECOMPRESSED_CHUNK_SIZE

/-- `PackedFile.last_chunk_offset_end`: offset within the last chunk where
the file ends. -/
def last_chunk_offset_end (offset size : Nat) : Nat :=
  (offset + size) % DECOMPRESSED_CHUNK_SIZE

/-- `HGPAKFile._parse`: the number of chunks decompressed to recover the
filename blob (`determine_bins(fileInfo[0].decompressed_size,
DECOMPRESSED_CHUNK_SIZE)`). -/
def chunks_for_filenames (blob_size : Nat) : Nat :=
  determine_bins blob_size DECOMPRESSED_CHUNK_SIZE

/-- `HGPAKFile._pack_files`: the chunk count the writer stores in the header
(`determine_bins(curr_total_data_size, DECOMPRESSED_CHUNK_SIZE)`). -/
def writer_chunk_count (curr_total_data_size : Nat) : Nat :=
  determine_bins curr_total_data_size DECOMPRESSED_CHUNK_SIZE

/-! Parametric variants of the chunk-grid computations, taking the chunk
size as an argument.  These exist only to state which chunk size the
source functions above actually use. -/

/-- `in_chunks` with an explicit chunk size. -/
def in_chunks_with (cs offset size : Nat) : Int × Int :=
  if offset % cs = 0 then
    ((determine_bins offset cs : Int), (determine_bins (offset + size) cs : Int) - 1)
  else
    ((determine_bins offset cs : Int) - 1, (determine_bins (offset + size) cs : Int) - 1)

/-- `first_chunk_offset` with an explicit chunk size. -/
def first_chunk_offset_with (cs offset : Nat) : Nat := offset % cs

/-- `last_chunk_offset_end` with an explicit chunk size. -/
def last_chunk_offset_end_with (cs offset size : Nat) : Nat := (offset + size) % cs

/-- `chunks_for_filenames` with an explicit chunk size. -/
def chunks_for_filenames_with (cs blob_size : Nat) : Nat := determine_bins blob_size cs

/-- `writer_chunk_count` with an explicit chunk size. -/
def writer_chunk_count_with (cs total : Nat) : Nat := determine_bins total cs

/-! ## compressors.py: the decompress wrappers

The underlying codec (the zstd / lz4 / oodle library call) is external to
the repository, so it is a parameter: `codec data = some b` models a
successful library call returning `b`, `codec data = none` models the
library raising its decompression error.  The wrapper's outcome
distinguishes returning bytes, returning `None` after logging
(`codecError`), and the `sys.exit(1)` taken on the switch-magic
diagnostic. -/

/-- Outcome of `Compressor._decompress_*`. -/
inductive DecompressResult where
  | ok (b : Bytes)
  | codecError
  | exitWrongPlatform
deriving DecidableEq, Repr

/-- `Compressor._decompress_windows` (Zstd, chunk size 0x10000). -/
def decompress_windows (codec : Bytes → Option Bytes) (data : Bytes) : DecompressResult :=
  match codec data with
  | some b => .ok b
  | none =>
    if data.length = compressorChunkSize Compression.zstd then .ok data
    else if data.take 2 = [0x8c, 0x0a] then .exitWrongPlatform
    else .codecError

/-- `Compressor._decompress_mac` (LZ4, chunk size 0x20000). -/
def decompress_mac (codec : Bytes → Option Bytes) (data : Bytes) : DecompressResult :=
  match codec data with
  | some b => .ok b
  | none =>
    if data.length = compressorChunkSize Compression.lz4 then .ok data
    else if data.take 2 = [0x8c, 0x0a] then .exitWrongPlatform
    else .codecError

/-- `Compressor._decompress_switch` (Oodle, chunk size 0x20000; no
switch-magic diagnostic). -/
def decompress_switch (codec : Bytes → Option Bytes) (data : Bytes) : DecompressResult :=
  match codec data with
  | some b => .ok b
  | none =>
    if data.length = compressorChunkSize Compression.oodle then .ok data
    else .codecError

/-- The always-failing codec, used as a concrete witness input. -/
def codecNone : Bytes → Option Bytes := fun _ => none

/-! ## api.py: HGPakHeader -/

/-- The parsed header (`api.HGPakHeader` fields set by `read`). -/
structure HGPakHeader where
  version : Nat
  file_count : Nat
  chunk_count : Nat
  is_compressed : Bool
  data_offset : Nat
deriving DecidableEq, Repr

/-- Errors surfaced while reading: `InvalidFileException`, `struct.error`
on a short read, and the unpack of a value that does not fit the format. -/
inductive ReadError where
  | invalidFile
  | structError
deriving DecidableEq, Repr

/-- Little-endian 64-bit encoding of `n` (`struct.pack` `<Q>`); `n` must be
below `2^64` for the Python pack call to succeed. -/
def u64le (n : Nat) : Bytes :=
  [n % 0x100, n / 0x100 % 0x100, n / 0x10000 % 0x100, n / 0x1000000 % 0x100,
   n / 0x100000000 % 0x100, n / 0x10000000000 % 0x100,
   n / 0x1000000000000 % 0x100, n / 0x100000000000000 % 0x100]

/-- Little-endian 64-bit decoding of the first 8 bytes of `l`
(`struct.unpack` `<Q>`). -/
def decodeU64 (l : Bytes) : Nat :=
  l.getD 0 0 + 0x100 * l.getD 1 0 + 0x10000 * l.getD 2 0 + 0x1000000 * l.getD 3 0
    + 0x100000000 * l.getD 4 0 + 0x10000000000 * l.getD 5 0
    + 0x1000000000000 * l.getD 6 0 + 0x100000000000000 * l.getD 7 0

/-- The 5 magic bytes `b"HGPAK"`. -/
def hgpakMagic : Bytes := [0x48, 0x47, 0x50, 0x41, 0x4B]

/-- `HGPakHeader.write`: `struct.pack("<5s3x", b"HGPAK")` followed by
`struct.pack("<QQQ?7xQ", version, file_count, chunk_count, is_compressed,
data_offset)`. -/
def headerWrite (h : HGPakHeader) : Bytes :=
  hgpakMagic ++ [0, 0, 0]
    ++ u64le h.version ++ u64le h.file_count ++ u64le h.chunk_count
    ++ [if h.is_compressed then 1 else 0] ++ [0, 0, 0, 0, 0, 0, 0]
    ++ u64le h.data_offset

/-- `HGPakHeader.read` over the file's bytes: seek 0 and unpack 5 bytes
(`struct.error` when fewer are available), compare with the magic, then
seek 8 and unpack 0x28 bytes as `<QQQ?7xQ>`; a version other than 2 is
rejected like a bad magic (`InvalidFileException` in both cases). -/
def headerRead (data : Bytes) : Except ReadError HGPakHeader :=
  if data.length < 5 then .error .structError
  else if data.take 5 ≠ hgpakMagic then .error .invalidFile
  else if data.length < 0x30 then .error .structError
  else if decodeU64 (data.drop 8) ≠ 2 then .error .invalidFile
  else
    .ok ⟨decodeU64 (data.drop 8), decodeU64 (data.drop 0x10), decodeU64 (data.drop 0x18),
         decide (data.getD 0x20 0 ≠ 0), decodeU64 (data.drop 0x28)⟩

/-! ## api.py: extraction -/

/-- A read from the open archive file: `fobj.read(k)` at position `pos`
returns the next `k` bytes of `data`, fewer when the end of the file is
reached. -/
def fobjRead (data : Bytes) (pos k : Nat) : Bytes := (data.drop pos).take k

/-- `HGPAKFile._extract_file_uncompressed` over the archive's bytes
`data`: seek to `finf.offset`, set `extract_size` to `finf.size`, or to
`max_bytes` when that is given (`none` models the Python sentinel `-1`),
then read `extract_size // CHUNK_SIZE` full chunks and the remainder.
The returned list is the sequence of yielded reads. -/
def extract_file_uncompressed (data : Bytes) (offset size : Nat)
    (max_bytes : Option Nat) : List Bytes :=
  let extract_size := match max_bytes with
    | none => size
    | some m => m
  let chunks := extract_size / DECOMPRESSED_CHUNK_SIZE
  if chunks = 0 then
    [fobjRead data offset extract_size]
  else
    (List.range chunks).map
      (fun i => fobjRead data (offset + i * DECOMPRESSED_CHUNK_SIZE) DECOMPRESSED_CHUNK_SIZE)
    ++ (if extract_size % DECOMPRESSED_CHUNK_SIZE ≠ 0 then
          [fobjRead data (offset + chunks * DECOMPRESSED_CHUNK_SIZE)
             (extract_size % DECOMPRESSED_CHUNK_SIZE)]
        else [])

/-- `HGPAKFile._get_filtered_filelist` restricted to literal patterns
(those without `*`): each filter is lowercased and added once, in filter
order, whether or not it names a packed file.  The glob branch
(`fnmatch.filter`) only yields names that exist in the archive, so a
missing path always comes from this branch. -/
def get_filtered_filelist (filters : List String) : List String :=
  filters.foldl (fun acc f => if acc.contains f.toLower then acc else acc ++ [f.toLower]) []

/-- The per-file loop of `HGPAKFile.extract`: for each requested path, the
extractor function looks the path up in `self.files` and raises
`FileNotFoundError` when it is absent; otherwise the file's bytes are
yielded (skipped when empty, per the `buffer.tell() > 0` check).  `files`
is the reader's path-to-content map; the result is the list of pairs the
generator yielded before it finished or raised, with the raising path. -/
def extract_iter (files : String → Option Bytes) :
    List String → List (String × Bytes) × Option String
  | [] => ([], none)
  | fpath :: rest =>
    match files fpath with
    | none => ([], some fpath)
    | some content =>
      let r := extract_iter files rest
      if content.length > 0 then ((fpath, content) :: r.1, r.2) else r

/-- A one-file reader map (only `"a"`, with one byte of content), used as
a concrete input. -/
def filesEx : String → Option Bytes :=
  fun s => if s = "a" then some [1] else none

/-! ## Theorems -/

/-- C10: `reqChunkBytes` (via `determine_bins`) and the bit-twiddling
`roundup` are the same function, and both equal `0x10 * ⌈x / 0x10⌉`. -/
theorem reqChunkBytes_eq_roundup (x : Nat) :
    reqChunkBytes x = roundup x ∧ roundup x = 0x10 * (x ⌈/⌉ 0x10) := by
  have hs : x >>> 4 <<< 4 = x / 16 * 16 := by
    rw [Nat.shiftRight_eq_div_pow, Nat.shiftLeft_eq]
  have hm : x &&& 0xF = x % 16 := by
    have h := Nat.and_pow_two_sub_one_eq_mod x 4
    norm_num at h
    exact h
  have hr : roundup x = 0x10 * (x ⌈/⌉ 0x10) := by
    unfold roundup
    rw [Nat.ceilDiv_eq_add_pred_div, hs, hm]
    by_cases h : x % 16 = 0
    · rw [if_pos h]; omega
    · rw [if_neg h]; omega
  have hq : reqChunkBytes x = 0x10 * (x ⌈/⌉ 0x10) := by
    unfold reqChunkBytes determine_bins
    rw [Nat.ceilDiv_eq_add_pred_div]
  exact ⟨hq.trans hr.symm, hr⟩

/-- Normal form of the start chunk computed by `in_chunks`. -/
theorem in_chunks_fst (offset size : Nat) :
    (in_chunks offset size).1 =
      if offset % 65536 = 0 then (((offset + 65535) / 65536 : Nat) : Int)
      else (((offset + 65535) / 65536 : Nat) : Int) - 1 := by
  unfold in_chunks determine_bins DECOMPRESSED_CHUNK_SIZE
  by_cases h : offset % 65536 = 0
  · rw [if_pos h, if_pos h]
    dsimp only
    omega
  · rw [if_neg h, if_neg h]
    dsimp only
    omega

/-- Normal form of the end chunk computed by `in_chunks`. -/
theorem in_chunks_snd (offset size : Nat) :
    (in_chunks offset size).2 = (((offset + size + 65535) / 65536 : Nat) : Int) - 1 := by
  unfold in_chunks determine_bins DECOMPRESSED_CHUNK_SIZE
  by_cases h : offset % 65536 = 0
  · rw [if_pos h]
    dsimp only
    omega
  · rw [if_neg h]
    dsimp only
    omega

/-- C6: `in_chunks` matches the specified formulas: the start chunk is
`offset / CHUNK_SIZE` when `offset` is chunk-aligned (never that minus one)
and `⌈offset / CHUNK_SIZE⌉ - 1` otherwise; the end chunk is
`⌈(offset + size) / CHUNK_SIZE⌉ - 1`. -/
theorem in_chunks_formulas (offset size : Nat) :
    (in_chunks offset size).1 =
      (if offset % DECOMPRESSED_CHUNK_SIZE = 0 then ((offset / DECOMPRESSED_CHUNK_SIZE : Nat) : Int)
       else ((offset ⌈/⌉ DECOMPRESSED_CHUNK_SIZE : Nat) : Int) - 1)
    ∧ (in_chunks offset size).2 = (((offset + size) ⌈/⌉ DECOMPRESSED_CHUNK_SIZE : Nat) : Int) - 1
    ∧ (offset % DECOMPRESSED_CHUNK_SIZE = 0 →
        (in_chunks offset size).1 ≠ ((offset / DECOMPRESSED_CHUNK_SIZE : Nat) : Int) - 1) := by
  have h1 := in_chunks_fst offset size
  have h2 := in_chunks_snd offset size
  have hcs : DECOMPRESSED_CHUNK_SIZE = 65536 := rfl
  rw [hcs, Nat.ceilDiv_eq_add_pred_div, Nat.ceilDiv_eq_add_pred_div]
  by_cases h : offset % 65536 = 0
  · rw [if_pos h] at h1 ⊢
    refine ⟨?_, ?_, fun _ => ?_⟩
    · rw [h1]; omega
    · rw [h2]; omega
    · rw [h1]; omega
  · rw [if_neg h] at h1 ⊢
    refine ⟨?_, ?_, fun hc => absurd hc h⟩
    · rw [h1]; omega
    · rw [h2]; omega

/-- C7 counterexample: a zero-size file at a chunk-aligned offset (offset 0,
size 0) violates `start_chunk ≤ end_chunk`: `in_chunks 0 0 = (0, -1)`. -/
theorem in_chunks_zero_size_counterexample :
    ¬ ((in_chunks 0 0).1 ≤ (in_chunks 0 0).2) := by decide

/-- C7 amended: the first-chunk offset and the last-chunk end offset of
every file lie in `[0, CHUNK_SIZE)`; and every file whose size is positive
or whose offset is not chunk-aligned satisfies `start_chunk ≤ end_chunk`
(a zero-size file at a chunk-aligned offset has `end_chunk = start_chunk
- 1`). -/
theorem in_chunks_invariants (offset size : Nat) :
    first_chunk_offset offset < DECOMPRESSED_CHUNK_SIZE
    ∧ last_chunk_offset_end offset size < DECOMPRESSED_CHUNK_SIZE
    ∧ ((0 < size ∨ offset % DECOMPRESSED_CHUNK_SIZE ≠ 0) →
        (in_chunks offset size).1 ≤ (in_chunks offset size).2) := by
  refine ⟨Nat.mod_lt _ (by decide), Nat.mod_lt _ (by decide), fun h => ?_⟩
  have hcs : DECOMPRESSED_CHUNK_SIZE = 65536 := rfl
  rw [hcs] at h
  rw [in_chunks_fst offset size, in_chunks_snd offset size]
  by_cases ha : offset % 65536 = 0
  · rw [if_pos ha]
    have hs : 0 < size := by omega
    omega
  · rw [if_neg ha]
    omega

/-- C7 witness: the amended invariant at offset 0, size 1, with the
positive-size hypothesis of the start-end part discharged there. -/
theorem in_chunks_invariants_witness :
    (0 < 1 ∨ 0 % DECOMPRESSED_CHUNK_SIZE ≠ 0)
    ∧ first_chunk_offset 0 < DECOMPRESSED_CHUNK_SIZE
    ∧ last_chunk_offset_end 0 1 < DECOMPRESSED_CHUNK_SIZE
    ∧ (in_chunks 0 1).1 ≤ (in_chunks 0 1).2 :=
  ⟨Or.inl (by decide), (in_chunks_invariants 0 1).1, (in_chunks_invariants 0 1).2.1,
   (in_chunks_invariants 0 1).2.2 (Or.inl (by decide))⟩

/-- C3 counterexample: for a mac (LZ4) reader the codec's chunk size is
0x20000, but `in_chunks` computes with the fixed constant 0x10000: at
offset 0x10000, size 1 the two chunk grids disagree. -/
theorem mac_chunk_grid_counterexample :
    in_chunks 0x10000 1
      ≠ in_chunks_with (compressorChunkSize (compression_map Platform.mac)) 0x10000 1 := by
  decide

/-- C3 amended: every chunk-grid computation (`in_chunks`,
`first_chunk_offset`, `last_chunk_offset_end`, the filename-blob chunk
count, and the writer's chunk count) uses the fixed constant
`DECOMPRESSED_CHUNK_SIZE = 0x10000` for every platform; the constructed
compressor's codec-dependent chunk size (0x10000 for windows/linux Zstd,
0x20000 for mac LZ4 and switch Oodle) is not consulted by the grid. -/
theorem chunk_grid_uses_fixed_constant :
    (∀ offset size, in_chunks offset size = in_chunks_with DECOMPRESSED_CHUNK_SIZE offset size)
    ∧ (∀ offset, first_chunk_offset offset = first_chunk_offset_with DECOMPRESSED_CHUNK_SIZE offset)
    ∧ (∀ offset size,
        last_chunk_offset_end offset size
          = last_chunk_offset_end_with DECOMPRESSED_CHUNK_SIZE offset size)
    ∧ (∀ blob, chunks_for_filenames blob = chunks_for_filenames_with DECOMPRESSED_CHUNK_SIZE blob)
    ∧ (∀ total, writer_chunk_count total = writer_chunk_count_with DECOMPRESSED_CHUNK_SIZE total)
    ∧ DECOMPRESSED_CHUNK_SIZE = 0x10000
    ∧ compressorChunkSize (compression_map Platform.windows) = 0x10000
    ∧ compressorChunkSize (compression_map Platform.linux) = 0x10000
    ∧ compressorChunkSize (compression_map Platform.mac) = 0x20000
    ∧ compressorChunkSize (compression_map Platform.switch) = 0x20000 :=
  ⟨fun _ _ => rfl, fun _ => rfl, fun _ _ => rfl, fun _ => rfl, fun _ => rfl,
   rfl, rfl, rfl, rfl, rfl⟩

/-- C5: for every payload on which the codec raises, each decompress
wrapper returns bytes if and only if the payload length equals that codec's
decompressed chunk size (0x10000 for Zstd, 0x20000 for LZ4 and Oodle), and
the bytes returned are the payload verbatim; for any other length no bytes
are returned. -/
theorem decompress_passthrough_iff (codec : Bytes → Option Bytes) (data : Bytes)
    (hfail : codec data = none) :
    ((∃ b, decompress_windows codec data = .ok b) ↔ data.length = 0x10000)
    ∧ (data.length = 0x10000 → decompress_windows codec data = .ok data)
    ∧ ((∃ b, decompress_mac codec data = .ok b) ↔ data.length = 0x20000)
    ∧ (data.length = 0x20000 → decompress_mac codec data = .ok data)
    ∧ ((∃ b, decompress_switch codec data = .ok b) ↔ data.length = 0x20000)
    ∧ (data.length = 0x20000 → decompress_switch codec data = .ok data) := by
  unfold decompress_windows decompress_mac decompress_switch compressorChunkSize
  rw [hfail]
  dsimp only
  refine ⟨?_, ?_, ?_, ?_, ?_, ?_⟩
  · by_cases hlen : data.length = 0x10000
    · simp [hlen]
    · by_cases hmagic : data.take 2 = [0x8c, 0x0a] <;> simp [hlen, hmagic]
  · intro hlen; rw [if_pos hlen]
  · by_cases hlen : data.length = 0x20000
    · simp [hlen]
    · by_cases hmagic : data.take 2 = [0x8c, 0x0a] <;> simp [hlen, hmagic]
  · intro hlen; rw [if_pos hlen]
  · by_cases hlen : data.length = 0x20000
    · simp [hlen]
    · simp [hlen]
  · intro hlen; rw [if_pos hlen]

/-- C5 witness: the always-failing codec on a 0x10000-byte payload. -/
theorem decompress_passthrough_iff_witness :
    codecNone (List.replicate 0x10000 0) = none
    ∧ (((∃ b, decompress_windows codecNone (List.replicate 0x10000 0) = .ok b)
         ↔ (List.replicate 0x10000 (0 : Nat)).length = 0x10000)
       ∧ ((List.replicate 0x10000 (0 : Nat)).length = 0x10000 →
           decompress_windows codecNone (List.replicate 0x10000 0)
             = .ok (List.replicate 0x10000 0))
       ∧ ((∃ b, decompress_mac codecNone (List.replicate 0x10000 0) = .ok b)
         ↔ (List.replicate 0x10000 (0 : Nat)).length = 0x20000)
       ∧ ((List.replicate 0x10000 (0 : Nat)).length = 0x20000 →
           decompress_mac codecNone (List.replicate 0x10000 0)
             = .ok (List.replicate 0x10000 0))
       ∧ ((∃ b, decompress_switch codecNone (List.replicate 0x10000 0) = .ok b)
         ↔ (List.replicate 0x10000 (0 : Nat)).length = 0x20000)
       ∧ ((List.replicate 0x10000 (0 : Nat)).length = 0x20000 →
           decompress_switch codecNone (List.replicate 0x10000 0)
             = .ok (List.replicate 0x10000 0))) :=
  ⟨rfl, decompress_passthrough_iff codecNone (List.replicate 0x10000 0) rfl⟩


/-- Decoding the little-endian encoding of `n < 2^64` (followed by anything)
recovers `n`. -/
theorem decodeU64_u64le_append (n : Nat) (rest : Bytes) (hn : n < 2 ^ 64) :
    decodeU64 (u64le n ++ rest) = n := by
  have h : decodeU64 (u64le n ++ rest)
      = n % 0x100 + 0x100 * (n / 0x100 % 0x100) + 0x10000 * (n / 0x10000 % 0x100)
        + 0x1000000 * (n / 0x1000000 % 0x100) + 0x100000000 * (n / 0x100000000 % 0x100)
        + 0x10000000000 * (n / 0x10000000000 % 0x100)
        + 0x1000000000000 * (n / 0x1000000000000 % 0x100)
        + 0x100000000000000 * (n / 0x100000000000000 % 0x100) := rfl
  rw [h]
  omega

set_option maxHeartbeats 1600000 in
/-- C8: writing a version-2 header and reading the written block back
recovers every field; the block starts with the 5 magic bytes `HGPAK` and
bytes 5..7 are zero. -/
theorem header_roundtrip (h : HGPakHeader) (hv : h.version = 2)
    (hf : h.file_count < 2 ^ 64) (hc : h.chunk_count < 2 ^ 64)
    (hd : h.data_offset < 2 ^ 64) :
    headerRead (headerWrite h) = .ok h
    ∧ (headerWrite h).take 5 = hgpakMagic
    ∧ ((headerWrite h).drop 5).take 3 = [0, 0, 0] := by
  obtain ⟨v, fc, cc, ic, doff⟩ := h
  replace hv : v = 2 := hv
  replace hf : fc < 2 ^ 64 := hf
  replace hc : cc < 2 ^ 64 := hc
  replace hd : doff < 2 ^ 64 := hd
  subst hv
  have hw : headerWrite ⟨2, fc, cc, ic, doff⟩
      = hgpakMagic ++ ([0, 0, 0] ++ (u64le 2 ++ (u64le fc ++ (u64le cc
        ++ ([if ic then 1 else 0] ++ ([0, 0, 0, 0, 0, 0, 0] ++ u64le doff)))))) := rfl
  refine ⟨?_, ?_, ?_⟩
  · rw [hw]
    show Except.ok
        (⟨2,
          decodeU64 (u64le fc ++ (u64le cc
            ++ ([if ic then 1 else 0] ++ ([0, 0, 0, 0, 0, 0, 0] ++ u64le doff)))),
          decodeU64 (u64le cc
            ++ ([if ic then 1 else 0] ++ ([0, 0, 0, 0, 0, 0, 0] ++ u64le doff))),
          decide ((if ic then (1 : Nat) else 0) ≠ 0),
          decodeU64 (u64le doff)⟩ : HGPakHeader)
      = Except.ok (⟨2, fc, cc, ic, doff⟩ : HGPakHeader)
    simp only [Except.ok.injEq, HGPakHeader.mk.injEq]
    refine ⟨trivial, ?_, ?_, ?_, ?_⟩
    · exact decodeU64_u64le_append fc _ hf
    · exact decodeU64_u64le_append cc _ hc
    · cases ic <;> rfl
    · exact decodeU64_u64le_append doff [] hd
  · rw [hw]
    rfl
  · rw [hw]
    rfl

/-- C8 witness: the round-trip at the concrete header
`{version 2, file_count 7, chunk_count 3, compressed, data_offset 0x110}`. -/
theorem header_roundtrip_witness :
    ((⟨2, 7, 3, true, 0x110⟩ : HGPakHeader).version = 2
     ∧ (⟨2, 7, 3, true, 0x110⟩ : HGPakHeader).file_count < 2 ^ 64
     ∧ (⟨2, 7, 3, true, 0x110⟩ : HGPakHeader).chunk_count < 2 ^ 64
     ∧ (⟨2, 7, 3, true, 0x110⟩ : HGPakHeader).data_offset < 2 ^ 64)
    ∧ (headerRead (headerWrite ⟨2, 7, 3, true, 0x110⟩) = .ok ⟨2, 7, 3, true, 0x110⟩
       ∧ (headerWrite ⟨2, 7, 3, true, 0x110⟩).take 5 = hgpakMagic
       ∧ ((headerWrite ⟨2, 7, 3, true, 0x110⟩).drop 5).take 3 = [0, 0, 0]) :=
  ⟨⟨rfl, by decide, by decide, by decide⟩,
   header_roundtrip ⟨2, 7, 3, true, 0x110⟩ rfl (by decide) (by decide) (by decide)⟩

/-- C9: for a file of at least 0x30 bytes, `headerRead` fails with
`InvalidFileException` exactly when the first 5 bytes are not `HGPAK` or
the decoded version is not 2, and otherwise fills every field from bytes
8..0x30 in the little-endian `<QQQ?7xQ>` layout; any successfully parsed
header has version 2 and a valid magic. -/
theorem header_read_spec (data : Bytes) (hlen : 0x30 ≤ data.length) :
    (data.take 5 ≠ hgpakMagic → headerRead data = .error .invalidFile)
    ∧ (data.take 5 = hgpakMagic → decodeU64 (data.drop 8) ≠ 2 →
        headerRead data = .error .invalidFile)
    ∧ (data.take 5 = hgpakMagic → decodeU64 (data.drop 8) = 2 →
        headerRead data
          = .ok ⟨2, decodeU64 (data.drop 0x10), decodeU64 (data.drop 0x18),
                 decide (data.getD 0x20 0 ≠ 0), decodeU64 (data.drop 0x28)⟩)
    ∧ (∀ hdr, headerRead data = .ok hdr → hdr.version = 2 ∧ data.take 5 = hgpakMagic) := by
  have h1 : ¬ (data.length < 5) := by omega
  have h3 : ¬ (data.length < 0x30) := by omega
  unfold headerRead
  rw [if_neg h1]
  refine ⟨?_, ?_, ?_, ?_⟩
  · intro hm
    rw [if_pos hm]
  · intro hm hv
    rw [if_neg (by simp [hm]), if_neg h3, if_pos hv]
  · intro hm hv
    rw [if_neg (by simp [hm]), if_neg h3, if_neg (by simp [hv]), hv]
  · intro hdr heq
    by_cases hm : data.take 5 = hgpakMagic
    · by_cases hv : decodeU64 (data.drop 8) = 2
      · rw [if_neg (by simp [hm]), if_neg h3, if_neg (by simp [hv])] at heq
        simp only [Except.ok.injEq] at heq
        subst heq
        exact ⟨hv, hm⟩
      · rw [if_neg (by simp [hm]), if_neg h3, if_pos hv] at heq
        exact absurd heq (by simp)
    · rw [if_pos hm] at heq
      exact absurd heq (by simp)

/-- C9 witness: the spec applied to the all-zero 0x30-byte file (whose
magic does not match). -/
theorem header_read_spec_witness :
    0x30 ≤ (List.replicate 0x30 (0 : Nat)).length
    ∧ (((List.replicate 0x30 (0 : Nat)).take 5 ≠ hgpakMagic →
          headerRead (List.replicate 0x30 0) = .error .invalidFile)
       ∧ ((List.replicate 0x30 (0 : Nat)).take 5 = hgpakMagic →
            decodeU64 ((List.replicate 0x30 (0 : Nat)).drop 8) ≠ 2 →
            headerRead (List.replicate 0x30 0) = .error .invalidFile)
       ∧ ((List.replicate 0x30 (0 : Nat)).take 5 = hgpakMagic →
            decodeU64 ((List.replicate 0x30 (0 : Nat)).drop 8) = 2 →
            headerRead (List.replicate 0x30 0)
              = .ok ⟨2, decodeU64 ((List.replicate 0x30 (0 : Nat)).drop 0x10),
                     decodeU64 ((List.replicate 0x30 (0 : Nat)).drop 0x18),
                     decide ((List.replicate 0x30 (0 : Nat)).getD 0x20 0 ≠ 0),
                     decodeU64 ((List.replicate 0x30 (0 : Nat)).drop 0x28)⟩)
       ∧ (∀ hdr, headerRead (List.replicate 0x30 0) = .ok hdr →
            hdr.version = 2 ∧ (List.replicate 0x30 (0 : Nat)).take 5 = hgpakMagic)) :=
  ⟨by decide, header_read_spec (List.replicate 0x30 0) (by decide)⟩

/-- C2: evaluation of the uncompressed extractor at a failing input: for a
1-byte file at offset 0 in a 3-byte data region, extraction limited by
`max_bytes = 2` reads 2 bytes — the file's byte and the byte after it —
instead of the `min(size, max_bytes) = 1` bytes the specification states. -/
theorem extract_uncompressed_overread :
    (extract_file_uncompressed [7, 8, 9] 0 1 (some 2)).flatten = [7, 8]
    ∧ min 1 2 = 1 := by
  constructor
  · rfl
  · rfl

/-- C4 counterexample: with the reader map holding only `"a"` (non-empty),
requesting the (already lowercase) paths `["b", "a"]` aborts on the
missing `"b"` before extracting anything: `"a"`, though requested and
present, is not extracted. -/
theorem extract_missing_aborts_counterexample :
    extract_iter filesEx ["b", "a"] = ([], some "b")
    ∧ ("a", [1]) ∉ (extract_iter filesEx ["b", "a"]).1 := by
  refine ⟨by decide, ?_⟩
  intro hmem
  have h : extract_iter filesEx ["b", "a"] = ([], some "b") := by decide
  rw [h] at hmem
  exact absurd hmem (List.not_mem_nil _)

/-- C4 amended: a multi-file extraction raises `FileNotFoundError` at the
first missing path: the files requested before it are extracted in order
(empty files are skipped), and every file after it — present or not — is
not extracted. -/
theorem extract_missing_aborts (files : String → Option Bytes) (xs : List String)
    (m : String) (ys : List String)
    (hxs : ∀ x ∈ xs, (files x).isSome) (hm : files m = none) :
    extract_iter files (xs ++ m :: ys)
      = (xs.filterMap (fun x =>
           match files x with
           | some c => if c.length > 0 then some (x, c) else none
           | none => none),
         some m) := by
  induction xs with
  | nil =>
    simp only [List.nil_append, List.filterMap_nil]
    simp [extract_iter, hm]
  | cons x xs ih =>
    have hx : (files x).isSome := hxs x (by simp)
    obtain ⟨c, hc⟩ : ∃ c, files x = some c := by
      cases hfx : files x
      · rw [hfx] at hx
        simp at hx
      · exact ⟨_, rfl⟩
    have ih' := ih (fun y hy => hxs y (by simp [hy]))
    simp only [List.cons_append, extract_iter, hc, List.filterMap_cons]
    by_cases hlen : c.length > 0
    · simp [hlen, ih']
    · simp [hlen, ih']

/-- C4 witness: the amended behaviour on the concrete reader map, with
`"a"` present (extracted) followed by the missing `"b"`. -/
theorem extract_missing_aborts_witness :
    ((∀ x ∈ ["a"], (filesEx x).isSome) ∧ filesEx "b" = none)
    ∧ extract_iter filesEx (["a"] ++ "b" :: [])
        = (["a"].filterMap (fun x =>
             match filesEx x with
             | some c => if c.length > 0 then some (x, c) else none
             | none => none),
           some "b") :=
  ⟨⟨by decide, by decide⟩,
   extract_missing_aborts filesEx ["a"] "b" [] (by decide) (by decide)⟩

end HGPAK
